import Mathlib

/-!
Verification of the building-resolution and geometry core of the
Street-View-Analysis repository (src/utils.py).

The geometric primitives of the shapely library (geometry construction,
point-in-polygon containment, point-to-geometry distance, centroid) are
external to the repository; they are modelled by an oracle structure, and the
control flow of src/utils.py is embedded faithfully on top of it.  Distances
and coordinates are modelled as rationals (the floating-point values of the
program), and fallible operations return `Except`.
-/

namespace StreetView

/-- A planar point, `(x, y) = (longitude, latitude)` in degrees, as built by
`Point(lon, lat)` in src/utils.py line 67. -/
structure Point where
  x : ℚ
  y : ℚ
deriving DecidableEq

/-- Oracle for the shapely geometry library used by src/utils.py: `shape`
builds a geometry from a feature and may raise (modelled by `Except`),
`contains` is point-in-polygon containment, `distance` is the planar
point-to-geometry distance in degrees, `centroid` may raise on degenerate
geometries. -/
structure GeomOracle (F G : Type) where
  shape : F → Except Unit G
  contains : G → Point → Bool
  distance : Point → G → ℚ
  centroid : G → Except Unit Point

variable {F G : Type}

/-- The clicked point of src/utils.py line 67: `Point(lon, lat)`. -/
def clickedPoint (lat lon : ℚ) : Point :=
  ⟨lon, lat⟩

/-- The for-loop of `find_building_by_coordinates` (src/utils.py lines
72-91), with the running `(closest_building, min_distance)` pair as the
accumulator; `none` stands for `closest_building = None, min_distance = inf`
(the two variables are updated in lockstep).  A geometry-construction failure
on a feature is caught and the feature skipped (the `except: continue`); a
containing feature returns `(feature, 0)` immediately; otherwise the feature
is tracked when its scaled distance is strictly below the running minimum and
within `max_distance`. -/
def findLoop (o : GeomOracle F G) (clicked_point : Point) (max_distance : ℚ) :
    List F → Option (F × ℚ) → Option (F × ℚ)
  | [], acc => acc
  | feature :: rest, acc =>
    match o.shape feature with
    | .error _ => findLoop o clicked_point max_distance rest acc
    | .ok building_geom =>
      let distance_meters := o.distance clicked_point building_geom * 111000
      if o.contains building_geom clicked_point then
        some (feature, 0)
      else
        match acc with
        | none =>
          if distance_meters ≤ max_distance then
            findLoop o clicked_point max_distance rest (some (feature, distance_meters))
          else
            findLoop o clicked_point max_distance rest none
        | some (closest_building, min_distance) =>
          if distance_meters < min_distance ∧ distance_meters ≤ max_distance then
            findLoop o clicked_point max_distance rest (some (feature, distance_meters))
          else
            findLoop o clicked_point max_distance rest (some (closest_building, min_distance))

/-- src/utils.py lines 54-96, `find_building_by_coordinates`: scan the
features in order and return `(building, distance)` or `(None, None)`
(modelled as `Option`). -/
def find_building_by_coordinates (o : GeomOracle F G) (lat lon : ℚ)
    (features : List F) (max_distance : ℚ) : Option (F × ℚ) :=
  findLoop o (clickedPoint lat lon) max_distance features none

/-- A feature is well formed when geometry construction succeeds on it. -/
def wellFormedB (o : GeomOracle F G) (f : F) : Bool :=
  match o.shape f with
  | .ok _ => true
  | .error _ => false

/-- The feature's geometry contains the point (false as well when geometry
construction fails on the feature). -/
def containsB (o : GeomOracle F G) (p : Point) (f : F) : Bool :=
  match o.shape f with
  | .ok g => o.contains g p
  | .error _ => false

/-- The feature's planar distance to the point scaled by 111000, the rough
degrees-to-meters conversion of src/utils.py line 80 (0 when geometry
construction fails on the feature). -/
def scaledDist (o : GeomOracle F G) (p : Point) (f : F) : ℚ :=
  match o.shape f with
  | .ok g => o.distance p g * 111000
  | .error _ => 0

/-- A feature whose geometry construction fails is skipped by the loop, for
any accumulator. -/
lemma findLoop_cons_error (o : GeomOracle F G) (p : Point) (maxd : ℚ)
    (feature : F) (rest : List F) (acc : Option (F × ℚ))
    (hs : wellFormedB o feature = false) :
    findLoop o p maxd (feature :: rest) acc = findLoop o p maxd rest acc := by
  unfold wellFormedB at hs
  cases he : o.shape feature with
  | ok g => rw [he] at hs; simp at hs
  | error e => simp [findLoop, he]

/-- A containing feature at the head of the list returns immediately with
distance 0, for any accumulator. -/
lemma findLoop_cons_contains (o : GeomOracle F G) (p : Point) (maxd : ℚ)
    (feature : F) (rest : List F) (acc : Option (F × ℚ))
    (hc : containsB o p feature = true) :
    findLoop o p maxd (feature :: rest) acc = some (feature, 0) := by
  unfold containsB at hc
  cases he : o.shape feature with
  | ok g => rw [he] at hc; simp only [] at hc; simp [findLoop, he, hc]
  | error e => rw [he] at hc; simp at hc

/-- A well-formed non-containing feature at the head of the list steps to the
tail with the accumulator updated by the strict-minimum-within-bound rule. -/
lemma findLoop_cons_track (o : GeomOracle F G) (p : Point) (maxd : ℚ)
    (feature : F) (rest : List F) (acc : Option (F × ℚ))
    (hw : wellFormedB o feature = true) (hc : containsB o p feature = false) :
    findLoop o p maxd (feature :: rest) acc =
      findLoop o p maxd rest
        (match acc with
         | none =>
           if scaledDist o p feature ≤ maxd then some (feature, scaledDist o p feature) else none
         | some (cb, m) =>
           if scaledDist o p feature < m ∧ scaledDist o p feature ≤ maxd then
             some (feature, scaledDist o p feature)
           else some (cb, m)) := by
  unfold wellFormedB at hw
  unfold containsB at hc
  cases he : o.shape feature with
  | ok g =>
    rw [he] at hc
    simp only [] at hc
    have hsd : scaledDist o p feature = o.distance p g * 111000 := by
      unfold scaledDist; rw [he]
    cases acc with
    | none =>
      by_cases hle : o.distance p g * 111000 ≤ maxd <;>
        simp [findLoop, he, hc, hsd, hle]
    | some cm =>
      obtain ⟨cb, m⟩ := cm
      by_cases hlt : o.distance p g * 111000 < m ∧ o.distance p g * 111000 ≤ maxd <;>
        simp [findLoop, he, hc, hsd, hlt]
  | error e => rw [he] at hw; simp at hw

/-- The short-circuit of src/utils.py lines 83-84: when no feature of `pre`
contains the point and `feature` does, the loop returns `(feature, 0)` from
any accumulator, whatever features follow. -/
lemma findLoop_first_contains (o : GeomOracle F G) (p : Point) (maxd : ℚ)
    (pre post : List F) (feature : F)
    (hfirst : ∀ f' ∈ pre, containsB o p f' = false)
    (hc : containsB o p feature = true) :
    ∀ acc : Option (F × ℚ),
      findLoop o p maxd (pre ++ feature :: post) acc = some (feature, 0) := by
  induction pre with
  | nil =>
    intro acc
    simpa using findLoop_cons_contains o p maxd feature post acc hc
  | cons f' pre ih =>
    intro acc
    have hf' : containsB o p f' = false := hfirst f' (List.mem_cons_self f' pre)
    have hrest : ∀ x ∈ pre, containsB o p x = false := fun x hx =>
      hfirst x (List.mem_cons_of_mem f' hx)
    rcases hwf : wellFormedB o f' with _ | _
    · rw [List.cons_append, findLoop_cons_error o p maxd f' _ acc hwf]
      exact ih hrest acc
    · rw [List.cons_append, findLoop_cons_track o p maxd f' _ acc hwf hf']
      exact ih hrest _

/-- C1: a click point lying (strictly) inside some polygon resolves to the
first containing polygon in iteration order, with distance exactly 0,
regardless of any later feature. -/
theorem find_building_first_containing_wins (o : GeomOracle F G)
    (lat lon max_distance : ℚ) (pre post : List F) (feature : F)
    (hfirst : ∀ f' ∈ pre, containsB o (clickedPoint lat lon) f' = false)
    (hc : containsB o (clickedPoint lat lon) feature = true) :
    find_building_by_coordinates o lat lon (pre ++ feature :: post) max_distance =
      some (feature, 0) :=
  findLoop_first_contains o (clickedPoint lat lon) max_distance pre post feature hfirst hc none

/-- Concrete run of C1: with geometry 1 the only one containing the origin,
the collection `[2, 1, 3]` resolves to feature 1 with distance 0. -/
def demoOracle : GeomOracle ℕ ℕ where
  shape f := if f = 9 then .error () else .ok f
  contains g p := decide (g = 1) && decide (p.x = 0) && decide (p.y = 0)
  distance _ g := (g : ℚ) / 1000
  centroid _ := .error ()

/-- Witness for C1 at a concrete input: feature 2 does not contain the origin,
feature 1 does, and the resolver returns `(1, 0)`. -/
theorem find_building_first_containing_wins_witness :
    containsB demoOracle (clickedPoint 0 0) 1 = true ∧
      (∀ f' ∈ [2], containsB demoOracle (clickedPoint 0 0) f' = false) ∧
      find_building_by_coordinates demoOracle 0 0 ([2] ++ 1 :: [3]) 100 = some (1, 0) :=
  ⟨by decide, by decide,
    find_building_first_containing_wins demoOracle 0 0 100 [2] [3] 1 (by decide) (by decide)⟩

/-- C10: the `max_distance` bound is never consulted on the containment
branch — when some polygon contains the click point, the resolver returns the
first containing polygon with distance 0 for every bound, 0 and negative
bounds included. -/
theorem find_building_containment_ignores_bound (o : GeomOracle F G)
    (lat lon : ℚ) (pre post : List F) (feature : F)
    (hfirst : ∀ f' ∈ pre, containsB o (clickedPoint lat lon) f' = false)
    (hc : containsB o (clickedPoint lat lon) feature = true) :
    ∀ max_distance : ℚ,
      find_building_by_coordinates o lat lon (pre ++ feature :: post) max_distance =
        some (feature, 0) := fun max_distance =>
  findLoop_first_contains o (clickedPoint lat lon) max_distance pre post feature hfirst hc none

/-- Witness for C10 at a concrete input: the collection `[2, 1, 3]` resolves
to `(1, 0)` under the bounds 0 and -5 alike. -/
theorem find_building_containment_ignores_bound_witness :
    containsB demoOracle (clickedPoint 0 0) 1 = true ∧
      (∀ f' ∈ [2], containsB demoOracle (clickedPoint 0 0) f' = false) ∧
      find_building_by_coordinates demoOracle 0 0 ([2] ++ 1 :: [3]) 0 = some (1, 0) ∧
      find_building_by_coordinates demoOracle 0 0 ([2] ++ 1 :: [3]) (-5) = some (1, 0) :=
  ⟨by decide, by decide,
    find_building_containment_ignores_bound demoOracle 0 0 [2] [3] 1 (by decide) (by decide) 0,
    find_building_containment_ignores_bound demoOracle 0 0 [2] [3] 1 (by decide) (by decide) (-5)⟩

/-- Once the accumulator holds a candidate at distance `m` and every remaining
feature neither contains the point nor (when well formed and within the bound)
beats `m` strictly, the loop keeps the candidate: the strict `<` of
src/utils.py line 87 means an equal-distance later feature does not replace
it. -/
lemma findLoop_keeps_min (o : GeomOracle F G) (p : Point) (maxd : ℚ) :
    ∀ (l : List F) (cb : F) (m : ℚ),
      (∀ f' ∈ l, containsB o p f' = false ∧
        (wellFormedB o f' = true → scaledDist o p f' ≤ maxd → m ≤ scaledDist o p f')) →
      findLoop o p maxd l (some (cb, m)) = some (cb, m) := by
  intro l
  induction l with
  | nil => intro cb m _; rfl
  | cons f' rest ih =>
    intro cb m h
    have hf' := h f' (List.mem_cons_self f' rest)
    have hrest : ∀ x ∈ rest, containsB o p x = false ∧
        (wellFormedB o x = true → scaledDist o p x ≤ maxd → m ≤ scaledDist o p x) :=
      fun x hx => h x (List.mem_cons_of_mem f' hx)
    rcases hwf : wellFormedB o f' with _ | _
    · rw [findLoop_cons_error o p maxd f' rest _ hwf]
      exact ih cb m hrest
    · rw [findLoop_cons_track o p maxd f' rest _ hwf hf'.1]
      have hnot : ¬(scaledDist o p f' < m ∧ scaledDist o p f' ≤ maxd) := by
        rintro ⟨hlt, hle⟩
        exact absurd (hf'.2 hwf hle) (not_le.mpr hlt)
      simp only [hnot, if_false]
      exact ih cb m hrest

/-- Main loop lemma for the nearest-within-bound branch: if no feature of the
list contains the point, `feature` is well formed with scaled distance within
the bound, every feature of `pre` that is well formed and within the bound is
strictly farther, and every feature of `post` that is well formed and within
the bound is no closer, then from any accumulator that is empty or strictly
worse than `feature`, the loop returns `(feature, scaledDist feature)`. -/
lemma findLoop_min_tracked (o : GeomOracle F G) (p : Point) (maxd : ℚ)
    (feature : F) (hwf : wellFormedB o feature = true)
    (hcf : containsB o p feature = false)
    (hbound : scaledDist o p feature ≤ maxd) :
    ∀ (pre post : List F),
      (∀ f' ∈ pre, containsB o p f' = false ∧
        (wellFormedB o f' = true → scaledDist o p f' ≤ maxd →
          scaledDist o p feature < scaledDist o p f')) →
      (∀ f' ∈ post, containsB o p f' = false ∧
        (wellFormedB o f' = true → scaledDist o p f' ≤ maxd →
          scaledDist o p feature ≤ scaledDist o p f')) →
      ∀ acc : Option (F × ℚ),
        (acc = none ∨ ∃ cb m, acc = some (cb, m) ∧ scaledDist o p feature < m) →
        findLoop o p maxd (pre ++ feature :: post) acc =
          some (feature, scaledDist o p feature) := by
  intro pre
  induction pre with
  | nil =>
    intro post _ hpost acc hacc
    rw [List.nil_append, findLoop_cons_track o p maxd feature post acc hwf hcf]
    rcases hacc with rfl | ⟨cb, m, rfl, hm⟩
    · simp only [hbound, if_true]
      exact findLoop_keeps_min o p maxd post feature _ hpost
    · simp only [hm, hbound, and_self, if_true]
      exact findLoop_keeps_min o p maxd post feature _ hpost
  | cons f' rest ih =>
    intro post hpre hpost acc hacc
    have hf' := hpre f' (List.mem_cons_self f' rest)
    have hrest : ∀ x ∈ rest, containsB o p x = false ∧
        (wellFormedB o x = true → scaledDist o p x ≤ maxd →
          scaledDist o p feature < scaledDist o p x) :=
      fun x hx => hpre x (List.mem_cons_of_mem f' hx)
    rcases hwf' : wellFormedB o f' with _ | _
    · rw [List.cons_append, findLoop_cons_error o p maxd f' _ acc hwf']
      exact ih post hrest hpost acc hacc
    · rw [List.cons_append, findLoop_cons_track o p maxd f' _ acc hwf' hf'.1]
      apply ih post hrest hpost
      rcases hacc with rfl | ⟨cb, m, rfl, hm⟩
      · by_cases hle : scaledDist o p f' ≤ maxd
        · simp only [hle, if_true]
          exact Or.inr ⟨f', scaledDist o p f', rfl, hf'.2 hwf' hle⟩
        · simp only [hle, if_false]
          exact Or.inl (by trivial)
      · by_cases hcond : scaledDist o p f' < m ∧ scaledDist o p f' ≤ maxd
        · simp only [hcond, if_true]
          exact Or.inr ⟨f', scaledDist o p f', rfl, hf'.2 hwf' hcond.2⟩
        · simp only [hcond, if_false]
          exact Or.inr ⟨cb, m, rfl, hm⟩

/-- C2: when no polygon contains the click point and `feature` is the first
feature achieving the minimum scaled boundary distance among those within
`max_distance`, the resolver returns `feature` paired with that minimum
scaled distance; a later feature at equal distance does not displace it. -/
theorem find_building_nearest_within_bound (o : GeomOracle F G)
    (lat lon max_distance : ℚ) (pre post : List F) (feature : F)
    (hwf : wellFormedB o feature = true)
    (hnc : ∀ f' ∈ pre ++ feature :: post, containsB o (clickedPoint lat lon) f' = false)
    (hbound : scaledDist o (clickedPoint lat lon) feature ≤ max_distance)
    (hmin : ∀ f' ∈ post, wellFormedB o f' = true →
      scaledDist o (clickedPoint lat lon) f' ≤ max_distance →
      scaledDist o (clickedPoint lat lon) feature ≤ scaledDist o (clickedPoint lat lon) f')
    (hpre : ∀ f' ∈ pre, wellFormedB o f' = true →
      scaledDist o (clickedPoint lat lon) f' ≤ max_distance →
      scaledDist o (clickedPoint lat lon) feature < scaledDist o (clickedPoint lat lon) f') :
    find_building_by_coordinates o lat lon (pre ++ feature :: post) max_distance =
      some (feature, scaledDist o (clickedPoint lat lon) feature) := by
  apply findLoop_min_tracked o (clickedPoint lat lon) max_distance feature hwf
    (hnc feature (by simp)) hbound pre post
  · intro f' hf'
    exact ⟨hnc f' (List.mem_append_left _ hf'), hpre f' hf'⟩
  · intro f' hf'
    exact ⟨hnc f' (by simp [hf']), hmin f' hf'⟩
  · exact Or.inl rfl

/-- Witness for C2 at a concrete input: with no containing polygon, the
malformed feature 9 skipped, feature 3 at scaled distance 333 and the two
copies of feature 2 at scaled distance 222 (a tie), the resolver returns the
earlier feature 2 with distance 222 under the bound 400. -/
theorem find_building_nearest_within_bound_witness :
    wellFormedB demoOracle 2 = true ∧
      (∀ f' ∈ [9, 3] ++ 2 :: [2], containsB demoOracle (clickedPoint 40 50) f' = false) ∧
      scaledDist demoOracle (clickedPoint 40 50) 2 ≤ 400 ∧
      (∀ f' ∈ [2], wellFormedB demoOracle f' = true →
        scaledDist demoOracle (clickedPoint 40 50) f' ≤ 400 →
        scaledDist demoOracle (clickedPoint 40 50) 2 ≤ scaledDist demoOracle (clickedPoint 40 50) f') ∧
      (∀ f' ∈ [9, 3], wellFormedB demoOracle f' = true →
        scaledDist demoOracle (clickedPoint 40 50) f' ≤ 400 →
        scaledDist demoOracle (clickedPoint 40 50) 2 < scaledDist demoOracle (clickedPoint 40 50) f') ∧
      find_building_by_coordinates demoOracle 40 50 ([9, 3] ++ 2 :: [2]) 400 = some (2, 222) := by
  have h2 : scaledDist demoOracle (clickedPoint 40 50) 2 = 222 := by
    norm_num [scaledDist, demoOracle]
  have h3 : scaledDist demoOracle (clickedPoint 40 50) 3 = 333 := by
    norm_num [scaledDist, demoOracle]
  have hwf9 : wellFormedB demoOracle 9 = false := by decide
  have hmin : ∀ f' ∈ [2], wellFormedB demoOracle f' = true →
      scaledDist demoOracle (clickedPoint 40 50) f' ≤ 400 →
      scaledDist demoOracle (clickedPoint 40 50) 2 ≤ scaledDist demoOracle (clickedPoint 40 50) f' := by
    intro f' hf'
    simp only [List.mem_singleton] at hf'
    subst hf'
    intro _ _
    exact le_refl _
  have hpre : ∀ f' ∈ [9, 3], wellFormedB demoOracle f' = true →
      scaledDist demoOracle (clickedPoint 40 50) f' ≤ 400 →
      scaledDist demoOracle (clickedPoint 40 50) 2 < scaledDist demoOracle (clickedPoint 40 50) f' := by
    intro f' hf'
    simp only [List.mem_cons, List.mem_singleton, List.not_mem_nil, or_false] at hf'
    rcases hf' with rfl | rfl
    · intro hw
      rw [hwf9] at hw
      exact absurd hw (by simp)
    · intro _ _
      rw [h2, h3]
      norm_num
  refine ⟨by decide, by decide, by rw [h2]; norm_num, hmin, hpre, ?_⟩
  have h := find_building_nearest_within_bound demoOracle 40 50 400 [9, 3] [2] 2
    (by decide) (by decide) (by rw [h2]; norm_num) hmin hpre
  rw [h2] at h
  exact h

/-- When no feature of the list contains the point and every well-formed
feature is strictly farther than the bound, the loop never tracks a candidate
and ends with the empty accumulator. -/
lemma findLoop_none (o : GeomOracle F G) (p : Point) (maxd : ℚ) :
    ∀ l : List F,
      (∀ f' ∈ l, containsB o p f' = false ∧
        (wellFormedB o f' = true → maxd < scaledDist o p f')) →
      findLoop o p maxd l none = none := by
  intro l
  induction l with
  | nil => intro _; rfl
  | cons f' rest ih =>
    intro h
    have hf' := h f' (List.mem_cons_self f' rest)
    have hrest : ∀ x ∈ rest, containsB o p x = false ∧
        (wellFormedB o x = true → maxd < scaledDist o p x) :=
      fun x hx => h x (List.mem_cons_of_mem f' hx)
    rcases hwf : wellFormedB o f' with _ | _
    · rw [findLoop_cons_error o p maxd f' rest _ hwf]
      exact ih hrest
    · rw [findLoop_cons_track o p maxd f' rest _ hwf hf'.1]
      have hnle : ¬ scaledDist o p f' ≤ maxd := not_le.mpr (hf'.2 hwf)
      simp only [hnle, if_false]
      exact ih hrest

/-- C3: when no polygon contains the click point and every well-formed
polygon's scaled boundary distance exceeds `max_distance`, the resolver
returns the NotFound outcome `(None, None)` (modelled as `none`) rather than
raising. -/
theorem find_building_not_found (o : GeomOracle F G) (lat lon max_distance : ℚ)
    (features : List F)
    (h : ∀ f' ∈ features, containsB o (clickedPoint lat lon) f' = false ∧
      (wellFormedB o f' = true →
        max_distance < scaledDist o (clickedPoint lat lon) f')) :
    find_building_by_coordinates o lat lon features max_distance = none :=
  findLoop_none o (clickedPoint lat lon) max_distance features h

/-- Witness for C3 at a concrete input: no feature contains the point
(40, 50), feature 9 is malformed, feature 3 has scaled distance 333 > 100, so
the resolver under bound 100 reports NotFound. -/
theorem find_building_not_found_witness :
    (∀ f' ∈ [9, 3], containsB demoOracle (clickedPoint 40 50) f' = false ∧
      (wellFormedB demoOracle f' = true →
        100 < scaledDist demoOracle (clickedPoint 40 50) f')) ∧
      find_building_by_coordinates demoOracle 40 50 [9, 3] 100 = none := by
  have h : ∀ f' ∈ [9, 3], containsB demoOracle (clickedPoint 40 50) f' = false ∧
      (wellFormedB demoOracle f' = true →
        100 < scaledDist demoOracle (clickedPoint 40 50) f') := by
    intro f' hf'
    simp only [List.mem_cons, List.mem_singleton, List.not_mem_nil, or_false] at hf'
    rcases hf' with rfl | rfl
    · exact ⟨by decide, fun hw => absurd hw (by decide)⟩
    · refine ⟨by decide, fun _ => ?_⟩
      norm_num [scaledDist, demoOracle]
  exact ⟨h, find_building_not_found demoOracle 40 50 100 [9, 3] h⟩

/-- The loop is insensitive to malformed features: running it on a list is
running it on the sublist of well-formed features, from any accumulator. -/
lemma findLoop_filter (o : GeomOracle F G) (p : Point) (maxd : ℚ) :
    ∀ (l : List F) (acc : Option (F × ℚ)),
      findLoop o p maxd l acc = findLoop o p maxd (l.filter (wellFormedB o)) acc := by
  intro l
  induction l with
  | nil => intro acc; rfl
  | cons f' rest ih =>
    intro acc
    rcases hwf : wellFormedB o f' with _ | _
    · rw [findLoop_cons_error o p maxd f' rest acc hwf,
        show (f' :: rest).filter (wellFormedB o) = rest.filter (wellFormedB o) by
          simp [List.filter_cons, hwf]]
      exact ih acc
    · have hkeep : (f' :: rest).filter (wellFormedB o) =
          f' :: rest.filter (wellFormedB o) := by
        simp [List.filter_cons, hwf]
      rcases hc : containsB o p f' with _ | _
      · rw [findLoop_cons_track o p maxd f' rest acc hwf hc, hkeep,
          findLoop_cons_track o p maxd f' (rest.filter (wellFormedB o)) acc hwf hc]
        exact ih _
      · rw [findLoop_cons_contains o p maxd f' rest acc hc, hkeep,
          findLoop_cons_contains o p maxd f' (rest.filter (wellFormedB o)) acc hc]

/-- C4: a geometry-construction failure on a feature is caught inside the
resolver, the feature is skipped and the scan continues: resolution over the
collection equals resolution over the collection with the malformed features
removed, and (the result being a plain `Option` value) no exception reaches
the caller. -/
theorem find_building_skips_malformed (o : GeomOracle F G)
    (lat lon max_distance : ℚ) (features : List F) :
    find_building_by_coordinates o lat lon features max_distance =
      find_building_by_coordinates o lat lon (features.filter (wellFormedB o))
        max_distance :=
  findLoop_filter o (clickedPoint lat lon) max_distance features none

/-- The loop only ever returns a distance that is 0, a tracked scaled
distance of a scanned feature, or the distance already in the accumulator. -/
lemma findLoop_nonneg (o : GeomOracle F G) (p : Point) (maxd : ℚ) :
    ∀ (l : List F) (acc : Option (F × ℚ)),
      (∀ f' ∈ l, 0 ≤ scaledDist o p f') →
      (∀ cb m, acc = some (cb, m) → 0 ≤ m) →
      ∀ b d, findLoop o p maxd l acc = some (b, d) → 0 ≤ d := by
  intro l
  induction l with
  | nil =>
    intro acc _ hacc b d h
    exact hacc b d h
  | cons f' rest ih =>
    intro acc hl hacc b d h
    have hrest : ∀ x ∈ rest, 0 ≤ scaledDist o p x :=
      fun x hx => hl x (List.mem_cons_of_mem f' hx)
    have hsd : 0 ≤ scaledDist o p f' := hl f' (List.mem_cons_self f' rest)
    rcases hwf : wellFormedB o f' with _ | _
    · rw [findLoop_cons_error o p maxd f' rest acc hwf] at h
      exact ih acc hrest hacc b d h
    · rcases hc : containsB o p f' with _ | _
      · rw [findLoop_cons_track o p maxd f' rest acc hwf hc] at h
        refine ih _ hrest ?_ b d h
        rcases acc with _ | ⟨cb0, m0⟩
        · intro cb m hm
          by_cases hle : scaledDist o p f' ≤ maxd
          · simp only [hle, if_true] at hm
            injection hm with hm'
            injection hm' with _ hm2
            rw [← hm2]
            exact hsd
          · simp only [hle, if_false] at hm
            exact absurd hm (by simp)
        · intro cb m hm
          by_cases hcond : scaledDist o p f' < m0 ∧ scaledDist o p f' ≤ maxd
          · simp only [hcond, if_true] at hm
            injection hm with hm'
            injection hm' with _ hm2
            rw [← hm2]
            exact hsd
          · simp only [hcond, if_false] at hm
            injection hm with hm'
            injection hm' with _ hm2
            rw [← hm2]
            exact hacc cb0 m0 rfl
      · rw [findLoop_cons_contains o p maxd f' rest acc hc] at h
        injection h with h'
        injection h' with _ h2
        rw [← h2]

/-- C6: whenever the resolver returns a building, the distance paired with it
is nonnegative (given that the geometry library's distances, and hence the
scaled distances of the scanned features, are nonnegative). -/
theorem find_building_distance_nonneg (o : GeomOracle F G)
    (lat lon max_distance : ℚ) (features : List F)
    (h : ∀ f ∈ features, 0 ≤ scaledDist o (clickedPoint lat lon) f) :
    ∀ b d, find_building_by_coordinates o lat lon features max_distance =
      some (b, d) → 0 ≤ d :=
  findLoop_nonneg o (clickedPoint lat lon) max_distance features none h
    (fun _ _ hm => absurd hm (by simp))

/-- Witness for C6 at a concrete input: on the collection `[3, 2]` the
resolver returns feature 2 at distance 222, and 222 is nonnegative. -/
theorem find_building_distance_nonneg_witness :
    (∀ f ∈ [3, 2], 0 ≤ scaledDist demoOracle (clickedPoint 40 50) f) ∧
      find_building_by_coordinates demoOracle 40 50 [3, 2] 400 = some (2, 222) ∧
      0 ≤ (222 : ℚ) := by
  have h : ∀ f ∈ [3, 2], 0 ≤ scaledDist demoOracle (clickedPoint 40 50) f := by
    intro f hf
    simp only [List.mem_cons, List.mem_singleton, List.not_mem_nil, or_false] at hf
    rcases hf with rfl | rfl <;> norm_num [scaledDist, demoOracle]
  have hrun : find_building_by_coordinates demoOracle 40 50 [3, 2] 400 = some (2, 222) := by
    norm_num [find_building_by_coordinates, findLoop, demoOracle, clickedPoint]
  exact ⟨h, hrun,
    find_building_distance_nonneg demoOracle 40 50 400 [3, 2] h 2 222 hrun⟩

/-- Oracle for building attribute access and Python's float constructor:
`latAttr`/`lonAttr` give the building's raw latitude/longitude attribute when
present (`building_feature.get('properties', \x7b\x7d).get(key, 0)`), and
`pyFloat` models `float(string)`, which raises on an unparsable string. -/
structure AttrOracle (F : Type) where
  latAttr : F → Option String
  lonAttr : F → Option String
  pyFloat : String → Except Unit ℚ

/-- Models `float(props.get(key, 0))` of src/utils.py lines 116-117: an
absent attribute yields the default 0 (and `float(0)` cannot fail); a present
attribute string is parsed by `float`, which may raise. -/
def attrFloat (pyFloat : String → Except Unit ℚ) (attr : Option String) :
    Except Unit ℚ :=
  match attr with
  | none => .ok 0
  | some s => pyFloat s

/-- src/utils.py lines 99-118, `get_building_center`: the centroid's
`(y, x) = (lat, lon)` when geometry construction and centroid computation
succeed, otherwise the attribute fallback — whose own parse failures are NOT
caught (they occur inside the `except` handler). -/
def get_building_center (o : GeomOracle F G) (a : AttrOracle F)
    (building_feature : F) : Except Unit (ℚ × ℚ) :=
  match (o.shape building_feature).bind o.centroid with
  | .ok c => .ok (c.y, c.x)
  | .error _ => do
    let lat ← attrFloat a.pyFloat (a.latAttr building_feature)
    let lon ← attrFloat a.pyFloat (a.lonAttr building_feature)
    return (lat, lon)

/-- A building whose geometry construction fails and whose latitude/longitude
attributes hold the unparsable string "abc". -/
def badGeomOracle : GeomOracle Unit Unit where
  shape _ := .error ()
  contains _ _ := false
  distance _ _ := 0
  centroid _ := .error ()

/-- Attribute oracle with both attributes present but unparsable: Python's
`float("abc")` raises ValueError. -/
def badAttrOracle : AttrOracle Unit where
  latAttr _ := some "abc"
  lonAttr _ := some "abc"
  pyFloat s := if s = "3.5" then .ok (7 / 2) else .error ()

/-- Counterexample to C5: on a building whose centroid computation throws and
whose latitude attribute is the malformed string "abc", `get_building_center`
raises (the `float` call sits inside the `except` handler and its ValueError
is not caught), contradicting the claim that the values default to 0 on parse
failure and that center never raises on malformed attribute strings. -/
theorem get_building_center_raises_on_malformed_attr :
    get_building_center badGeomOracle badAttrOracle () = .error () := by
  rfl

/-- C5 as amended: when centroid computation throws, center returns the raw
attribute latitude and longitude parsed as floating point, where an ABSENT
attribute defaults to 0; if a present attribute fails to parse, the error
propagates out of center (it is not replaced by 0). -/
theorem get_building_center_fallback (o : GeomOracle F G) (a : AttrOracle F)
    (building_feature : F) (lat lon : ℚ)
    (hthrow : (o.shape building_feature).bind o.centroid = .error ())
    (hlat : attrFloat a.pyFloat (a.latAttr building_feature) = .ok lat)
    (hlon : attrFloat a.pyFloat (a.lonAttr building_feature) = .ok lon) :
    get_building_center o a building_feature = .ok (lat, lon) := by
  unfold get_building_center
  rw [hthrow]
  simp only [bind, Except.bind, hlat, hlon]
  rfl

/-- Attribute oracle with the latitude attribute absent (defaulting to 0) and
the longitude attribute the parsable string "3.5". -/
def fallbackAttrOracle : AttrOracle Unit where
  latAttr _ := none
  lonAttr _ := some "3.5"
  pyFloat s := if s = "3.5" then .ok (7 / 2) else .error ()

/-- Witness for the amended C5 at a concrete input: centroid computation
throws, the absent latitude defaults to 0, the longitude string "3.5" parses
to 7/2, and center returns `(0, 7/2)`. -/
theorem get_building_center_fallback_witness :
    (badGeomOracle.shape ()).bind badGeomOracle.centroid = .error () ∧
      attrFloat fallbackAttrOracle.pyFloat (fallbackAttrOracle.latAttr ()) = .ok 0 ∧
      attrFloat fallbackAttrOracle.pyFloat (fallbackAttrOracle.lonAttr ()) = .ok (7 / 2) ∧
      get_building_center badGeomOracle fallbackAttrOracle () = .ok (0, 7 / 2) :=
  ⟨rfl, rfl, by norm_num [attrFloat, fallbackAttrOracle],
    get_building_center_fallback badGeomOracle fallbackAttrOracle () 0 (7 / 2) rfl rfl
      (by norm_num [attrFloat, fallbackAttrOracle])⟩

/-- The two ways `load_building_data` can raise: `open` raises an OSError on
a missing or unreadable file, `json.load` raises a JSONDecodeError on input
that is not valid JSON. -/
inductive DataLoadError where
  | ioError
  | parseError
deriving DecidableEq

/-- The state of the geometry source file as the loader sees it: absent,
present but unreadable, readable but not parseable as the serialization
format, or readable with parsed content `j`. -/
inductive GeoSource (J : Type) where
  | missing
  | unreadable
  | invalidSyntax
  | content (j : J)

/-- src/utils.py lines 13-24, `load_building_data`: `open` the file and
return `json.load(f)` unchanged.  The only failures are the file failing to
open and the JSON parser failing; the parsed value is returned with no
inspection of the features it holds. -/
def load_building_data {J : Type} : GeoSource J → Except DataLoadError J
  | .missing => .error .ioError
  | .unreadable => .error .ioError
  | .invalidSyntax => .error .parseError
  | .content j => .ok j

/-- C8: loading fails exactly when the source file is missing, unreadable or
not valid collection syntax; on any readable, syntactically valid source the
parsed feature collection is returned as is — in particular a malformed
individual feature inside it (one on which geometry construction will fail)
never makes the whole load fail. -/
theorem load_building_data_failure_iff (F : Type) :
    (∀ s : GeoSource (List F),
      (∃ e, load_building_data s = .error e) ↔
        (s = .missing ∨ s = .unreadable ∨ s = .invalidSyntax)) ∧
    (∀ features : List F, load_building_data (.content features) = .ok features) := by
  constructor
  · intro s
    cases s with
    | missing => exact ⟨fun _ => Or.inl rfl, fun _ => ⟨.ioError, rfl⟩⟩
    | unreadable => exact ⟨fun _ => Or.inr (Or.inl rfl), fun _ => ⟨.ioError, rfl⟩⟩
    | invalidSyntax => exact ⟨fun _ => Or.inr (Or.inr rfl), fun _ => ⟨.parseError, rfl⟩⟩
    | content j =>
      constructor
      · rintro ⟨e, he⟩
        exact absurd he (by simp [load_building_data])
      · rintro (h | h | h) <;> exact absurd h (by simp)
  · intro features
    rfl

noncomputable section

/-- Python math.radians: degrees to radians. -/
def radians (x : ℝ) : ℝ :=
  x * (Real.pi / 180)

/-- Python math.degrees: radians to degrees. -/
def degrees (x : ℝ) : ℝ :=
  x * (180 / Real.pi)

/-- Python math.atan2(y, x): the angle of the planar point (x, y), in
(-π, π], with atan2(0, 0) = 0 (defined, no exception). -/
def atan2 (y x : ℝ) : ℝ :=
  Complex.arg ⟨x, y⟩

/-- Python's modulo on floats: the remainder takes the divisor's sign; for
real operands, x % y = x - y·⌊x / y⌋. -/
def pymod (x y : ℝ) : ℝ :=
  x - y * ⌊x / y⌋

/-- For a positive divisor, Python's modulo lands in [0, divisor), whatever
the dividend. -/
lemma pymod_mem_Ico (x y : ℝ) (hy : 0 < y) : pymod x y ∈ Set.Ico 0 y := by
  have h1 : (⌊x / y⌋ : ℝ) * y ≤ x := by
    rw [← le_div_iff₀ hy]
    exact Int.floor_le _
  have h2 : x < ((⌊x / y⌋ : ℝ) + 1) * y := by
    rw [← div_lt_iff₀ hy]
    exact Int.lt_floor_add_one _
  unfold pymod
  constructor
  · nlinarith
  · nlinarith

/-- src/utils.py lines 155-173, `calculate_bearing`: the spherical initial
bearing via atan2, converted to degrees and normalized by
`(bearing_deg + 360) % 360`. -/
def calculate_bearing (lat1 lon1 lat2 lon2 : ℝ) : ℝ :=
  let lat1_rad := radians lat1
  let lon1_rad := radians lon1
  let lat2_rad := radians lat2
  let lon2_rad := radians lon2
  let delta_lon := lon2_rad - lon1_rad
  let y := Real.sin delta_lon * Real.cos lat2_rad
  let x := Real.cos lat1_rad * Real.sin lat2_rad -
    Real.sin lat1_rad * Real.cos lat2_rad * Real.cos delta_lon
  let bearing_rad := atan2 y x
  let bearing_deg := degrees bearing_rad
  pymod (bearing_deg + 360) 360

/-- C7: for every pair of input points the bearing is a well-defined value in
the half-open interval [0, 360), obtained by adding 360 to the atan2-based
bearing in degrees and taking modulo 360 — in particular at zero displacement
`calculate_bearing lat lon lat lon` is defined and lies in [0, 360). -/
theorem calculate_bearing_mem_Ico :
    ∀ lat1 lon1 lat2 lon2 : ℝ,
      calculate_bearing lat1 lon1 lat2 lon2 ∈ Set.Ico (0 : ℝ) 360 :=
  fun lat1 lon1 lat2 lon2 => pymod_mem_Ico _ 360 (by norm_num)

/-- src/utils.py lines 27-51, `calculate_distance`: the haversine distance
with Earth radius R = 6371000 meters. -/
def calculate_distance (lat1 lon1 lat2 lon2 : ℝ) : ℝ :=
  let R : ℝ := 6371000
  let lat1_rad := radians lat1
  let lon1_rad := radians lon1
  let lat2_rad := radians lat2
  let lon2_rad := radians lon2
  let dlat := lat2_rad - lat1_rad
  let dlon := lon2_rad - lon1_rad
  let a := Real.sin (dlat / 2) ^ 2 +
    Real.cos lat1_rad * Real.cos lat2_rad * Real.sin (dlon / 2) ^ 2
  let c := 2 * atan2 (Real.sqrt a) (Real.sqrt (1 - a))
  R * c

/-- The standard haversine formula exactly as the spec words it (§4.3):
R · 2 · atan2(√a, √(1-a)) with a = sin²(Δlat/2) + cos lat1 · cos lat2 ·
sin²(Δlon/2) over the radian-converted inputs and R = 6371000 meters.
Stated from the spec's words, to be compared with `calculate_distance`. -/
def haversineDistanceSpec (lat1 lon1 lat2 lon2 : ℝ) : ℝ :=
  6371000 * 2 *
    atan2 (Real.sqrt (Real.sin ((radians lat2 - radians lat1) / 2) ^ 2 +
        Real.cos (radians lat1) * Real.cos (radians lat2) *
          Real.sin ((radians lon2 - radians lon1) / 2) ^ 2))
      (Real.sqrt (1 - (Real.sin ((radians lat2 - radians lat1) / 2) ^ 2 +
        Real.cos (radians lat1) * Real.cos (radians lat2) *
          Real.sin ((radians lon2 - radians lon1) / 2) ^ 2)))

/-- C9: `calculate_distance` is exactly the standard haversine formula with
Earth radius 6371000 meters, as the spec states it. -/
theorem calculate_distance_eq_haversine :
    ∀ lat1 lon1 lat2 lon2 : ℝ,
      calculate_distance lat1 lon1 lat2 lon2 =
        haversineDistanceSpec lat1 lon1 lat2 lon2 := by
  intro lat1 lon1 lat2 lon2
  simp only [calculate_distance, haversineDistanceSpec]
  ring

end

end StreetView
